import Mathlib

/-!
Shallow embedding of the Rust CSV→NDJSON+bulk transform engine
(`rust-transform/src/main.rs`).

Strings are modelled as `List Char` (the relevant Rust operations —
`trim`, `to_ascii_lowercase`, `contains`, `rfind`, slicing — are all
character-faithful on the patterns this program searches for, which are
pure ASCII).  Rust `f64` values are modelled exactly as rationals `ℚ`:
every numeric path in the program parses short decimal strings, and the
claims under verification concern the decimal-string transformation, not
binary rounding.  Rust `i64` is modelled as `Int` with the explicit
overflow bound `2^63 - 1` where `str::parse::<i64>` can fail.
-/

namespace PartsTransform

/-! ### Character helpers (mirroring Rust `str` methods) -/

/-- The double-quote character. -/
def quoteChar : Char := Char.ofNat 34

/-- The single-quote character. -/
def aposChar : Char := Char.ofNat 39

/-- Rust `char::to_ascii_lowercase`. -/
def asciiLower (c : Char) : Char :=
  if 65 ≤ c.toNat ∧ c.toNat ≤ 90 then Char.ofNat (c.toNat + 32) else c

/-- Trim characters satisfying `p` from both ends (Rust `str::trim_matches`). -/
def trimEnds (p : Char → Bool) (l : List Char) : List Char :=
  ((l.dropWhile p).reverse.dropWhile p).reverse

/-- Rust `str::trim` (whitespace at both ends). -/
def trimWs (l : List Char) : List Char := trimEnds Char.isWhitespace l

/-- Rust `trim_matches(|c| c == double-quote or c == single-quote)`. -/
def trimQuotes (l : List Char) : List Char :=
  trimEnds (fun c => decide (c = quoteChar) || decide (c = aposChar)) l

/-- Header normalisation from `ColumnMap::from_headers`:
`h.trim().to_ascii_lowercase()` then quote-trimming. -/
def normHeader (h : List Char) : List Char :=
  trimQuotes ((trimWs h).map asciiLower)

/-- Rust `str::contains(substring)`. -/
def containsSub (needle : List Char) : List Char → Bool
  | [] => needle.isPrefixOf []
  | c :: cs => needle.isPrefixOf (c :: cs) || containsSub needle cs

/-- Rust `str::rfind(substring)`: start index of the last occurrence. -/
def rfindSub (needle hay : List Char) : Option Nat :=
  (List.range (hay.length + 1)).reverse.find? (fun i => needle.isPrefixOf (hay.drop i))

/-- Rust `str::rfind(char)`: index of the last occurrence of a character. -/
def rfindChar (x : Char) (l : List Char) : Option Nat :=
  (List.range l.length).reverse.find? (fun i => decide (l.get? i = some x))

/-- `extract_stock_code_from_filename`: the segment between the last `_`
before the last `_part` marker and that marker; empty if the pattern is
absent. -/
def extract_stock_code_from_filename (filename : List Char) : List Char :=
  match rfindSub (("_part").toList) filename with
  | some start =>
      let before := filename.take start
      match rfindChar '_' before with
      | some u => before.drop (u + 1)
      | none => []
  | none => []

/-! ### Numeric coercion (`parse_f64`, `parse_i64`) -/

/-- Value of a string of ASCII digits (the accumulation done by
`str::parse` on a digit-only string). -/
def digitsVal (l : List Char) : Nat :=
  l.foldl (fun a c => a * 10 + (c.toNat - 48)) 0

/-- Sign handling of Rust `f64::from_str`: one optional leading `-`. -/
def parseSign : List Char → Bool × List Char
  | [] => (false, [])
  | c :: cs => if c = '-' then (true, cs) else (false, c :: cs)

/-- A character admissible in the unsigned body of a decimal literal. -/
def isDigitOrDot (c : Char) : Bool := c.isDigit || decide (c = '.')

/-- Validity of the unsigned body of a decimal literal for
`f64::from_str`, restricted to the alphabet `{digits, '.', '-'}` that the
cleaned inputs of `parse_f64` can contain: only digits and at most one
dot, and at least one digit. -/
def validBody (body : List Char) : Bool :=
  body.all isDigitOrDot && decide (body.count '.' ≤ 1) && body.any Char.isDigit

/-- Exact value of a valid unsigned decimal body. -/
def bodyVal (body : List Char) : ℚ :=
  let ip := body.takeWhile (fun c => decide (c ≠ '.'))
  let fp := (body.dropWhile (fun c => decide (c ≠ '.'))).drop 1
  (digitsVal ip : ℚ) + (digitsVal fp : ℚ) / ((10 : ℚ) ^ fp.length)

/-- Rust `str::parse::<f64>` on the comma-free strings produced inside
`parse_f64` (alphabet `{digits, '.', '-'}`), with the value taken
exactly in `ℚ`. -/
def parseRustF64 (s : List Char) : Option ℚ :=
  let sb := parseSign s
  if validBody sb.2 then
    some (if sb.1 then -(bodyVal sb.2) else bodyVal sb.2)
  else none

/-- Rust `str::replace(',', "")`. -/
def stripCommas : List Char → List Char
  | [] => []
  | c :: cs => if c = ',' then stripCommas cs else c :: stripCommas cs

/-- Rust `str::replacen(',', ".", 1)`. -/
def replaceFirstComma : List Char → List Char
  | [] => []
  | c :: cs => if c = ',' then '.' :: cs else c :: replaceFirstComma cs

/-- Rust `str::split(',').collect::<Vec<_>>()`. -/
def splitComma : List Char → List (List Char)
  | [] => [[]]
  | c :: cs =>
      if c = ',' then [] :: splitComma cs
      else
        match splitComma cs with
        | p :: ps => (c :: p) :: ps
        | [] => [[c]]

/-- The character filter of `parse_f64`: keep ASCII digits, `.`, `-`, `,`. -/
def f64Keep (c : Char) : Bool :=
  c.isDigit || decide (c = '.') || decide (c = '-') || decide (c = ',')

/-- The comma-disambiguation body of `parse_f64` (lines 303–323 of
`main.rs`), applied to the already-cleaned string. -/
def parse_f64Comma (cleaned : List Char) : ℚ :=
  if '.' ∈ cleaned then
    (parseRustF64 (stripCommas cleaned)).getD 0
  else if cleaned.getLast? = some ',' then
    (parseRustF64 (stripCommas cleaned)).getD 0
  else if cleaned.count ',' = 1 then
    if (splitComma cleaned).length = 2 ∧ ((splitComma cleaned).getD 1 []).length ≤ 2 then
      (parseRustF64 (replaceFirstComma cleaned)).getD 0
    else
      (parseRustF64 (stripCommas cleaned)).getD 0
  else
    (parseRustF64 (stripCommas cleaned)).getD 0

/-- `parse_f64` from `main.rs`: strip to `{digits, '.', '-', ','}`, then
disambiguate commas, parse, and default to `0` on failure. -/
def parse_f64 (s : List Char) : ℚ :=
  if s = [] then 0
  else
    let cleaned := s.filter f64Keep
    if cleaned = [] then 0
    else parse_f64Comma cleaned

/-- The comma rule as the specification states it (C3), on the cleaned
string: with a `.` present remove every comma; otherwise with exactly one
comma whose following text has length at most two, replace it by a dot;
any other comma pattern is stripped. -/
def parse_f64SpecComma (cleaned : List Char) : ℚ :=
  if '.' ∈ cleaned then
    (parseRustF64 (stripCommas cleaned)).getD 0
  else if cleaned.count ',' = 1 ∧ ((cleaned.dropWhile (fun c => decide (c ≠ ','))).drop 1).length ≤ 2 then
    (parseRustF64 (replaceFirstComma cleaned)).getD 0
  else
    (parseRustF64 (stripCommas cleaned)).getD 0

/-- Numeric coercion as the specification states it (C3): strip to
`{digits, '.', '-', ','}`, apply the comma rule, and yield `0` for empty
or unparsable input. -/
def parse_f64_spec (s : List Char) : ℚ :=
  parse_f64SpecComma (s.filter f64Keep)

/-- The accumulation loop of `parse_i64` (lines 332–339): push digits,
stop at the first non-digit once the accumulator is non-empty. -/
def i64Loop (acc : List Char) : List Char → List Char
  | [] => acc
  | c :: cs =>
      if c.isDigit then i64Loop (acc ++ [c]) cs
      else if acc = [] then i64Loop acc cs
      else acc

/-- Largest `i64` value; `str::parse::<i64>` fails above it. -/
def i64Max : Nat := 9223372036854775807

/-- `parse_i64` from `main.rs`: first maximal ASCII-digit run, parsed as
`i64` (`0` when the run is empty or its value overflows `i64`). -/
def parse_i64 (s : List Char) : Int :=
  if s = [] then 0
  else
    let numStr := i64Loop [] s
    if numStr = [] then 0
    else if digitsVal numStr ≤ i64Max then (digitsVal numStr : Int)
    else 0

/-- Integer coercion as amended for C9: the value of the first maximal
digit run obtained by skipping leading non-digits, `0` when there is no
run or when the run's value exceeds the `i64` maximum. -/
def parse_i64_amended (s : List Char) : Int :=
  let run := (s.dropWhile (fun c => !c.isDigit)).takeWhile Char.isDigit
  if run = [] then 0
  else if digitsVal run ≤ i64Max then (digitsVal run : Int)
  else 0

/-! ### Column resolution (`ColumnMap::from_headers`) -/

/-- Resolved column indices for the 16 semantic fields. -/
structure ColumnMap where
  part_number : Option Nat
  description : Option Nat
  brand : Option Nat
  supplier : Option Nat
  price : Option Nat
  currency : Option Nat
  quantity : Option Nat
  min_order_qty : Option Nat
  stock : Option Nat
  stock_code : Option Nat
  weight : Option Nat
  weight_unit : Option Nat
  volume : Option Nat
  delivery_days : Option Nat
  category : Option Nat
  subcategory : Option Nat
deriving DecidableEq, Repr

/-- The all-`None` initial map of `ColumnMap::from_headers`. -/
def emptyColumnMap : ColumnMap :=
  ⟨none, none, none, none, none, none, none, none,
   none, none, none, none, none, none, none, none⟩

/-- Part-number synonym rule (lines 135–145 of `main.rs`). -/
def partNumberHeaderPred (h : List Char) : Bool :=
  containsSub (("vendor code").toList) h || containsSub (("vendor_code").toList) h
    || decide (h = ("partnumber").toList) || decide (h = ("part number").toList)
    || decide (h = ("part_number").toList) || decide (h = ("sku").toList)
    || decide (h = ("code").toList) || decide (h = ("item number").toList)
    || decide (h = ("item #").toList) || decide (h = ("product code").toList)
    || decide (h = ("part #").toList)

/-- Description rule. -/
def descriptionHeaderPred (h : List Char) : Bool :=
  containsSub (("title").toList) h || containsSub (("desc").toList) h
    || decide (h = ("name").toList) || decide (h = ("product name").toList)

/-- Brand rule. -/
def brandHeaderPred (h : List Char) : Bool :=
  containsSub (("brand").toList) h || decide (h = ("manufacturer").toList)
    || decide (h = ("make").toList) || decide (h = ("mfr").toList)

/-- Supplier rule. -/
def supplierHeaderPred (h : List Char) : Bool :=
  containsSub (("supplier").toList) h

/-- Price rule. -/
def priceHeaderPred (h : List Char) : Bool :=
  containsSub (("price").toList) h || containsSub (("cost").toList) h

/-- Currency rule. -/
def currencyHeaderPred (h : List Char) : Bool :=
  containsSub (("currency").toList) h || containsSub (("curr").toList) h
    || decide (h = ("aed").toList) || decide (h = ("usd").toList)

/-- Quantity rule. -/
def quantityHeaderPred (h : List Char) : Bool :=
  decide (h = ("quantity").toList) || decide (h = ("qty").toList)

/-- Minimum-order-quantity rule. -/
def minOrderHeaderPred (h : List Char) : Bool :=
  containsSub (("min_lot").toList) h || containsSub (("min lot").toList) h
    || containsSub (("minorder").toList) h || containsSub (("min_order").toList) h
    || decide (h = ("moq").toList) || decide (h = ("minimum order").toList)

/-- Stock rule (exact match). -/
def stockHeaderPred (h : List Char) : Bool :=
  decide (h = ("stock").toList)

/-- Stock-code rule. -/
def stockCodeHeaderPred (h : List Char) : Bool :=
  containsSub (("stock code").toList) h || containsSub (("stock_code").toList) h
    || containsSub (("stockcode").toList) h || decide (h = ("warehouse").toList)

/-- Weight rule (exact match). -/
def weightHeaderPred (h : List Char) : Bool :=
  decide (h = ("weight").toList)

/-- Weight-unit rule. -/
def weightUnitHeaderPred (h : List Char) : Bool :=
  containsSub (("weight_unit").toList) h || containsSub (("weightunit").toList) h

/-- Volume rule. -/
def volumeHeaderPred (h : List Char) : Bool :=
  containsSub (("volume").toList) h || decide (h = ("vol").toList)

/-- Delivery-days rule. -/
def deliveryHeaderPred (h : List Char) : Bool :=
  containsSub (("delivery").toList) h || containsSub (("lead_time").toList) h
    || containsSub (("leadtime").toList) h

/-- Category rule. -/
def categoryHeaderPred (h : List Char) : Bool :=
  decide (h = ("category").toList) || decide (h = ("cat").toList)

/-- Subcategory rule. -/
def subcategoryHeaderPred (h : List Char) : Bool :=
  containsSub (("subcategory").toList) h || containsSub (("subcat").toList) h
    || containsSub (("sub_category").toList) h

/-- The slot assignments `map.<field> = Some(i)` of the header loop. -/
def ColumnMap.setPartNumber (m : ColumnMap) (i : Nat) : ColumnMap := { m with part_number := some i }

/-- Slot assignment for `description`. -/
def ColumnMap.setDescription (m : ColumnMap) (i : Nat) : ColumnMap := { m with description := some i }

/-- Slot assignment for `brand`. -/
def ColumnMap.setBrand (m : ColumnMap) (i : Nat) : ColumnMap := { m with brand := some i }

/-- Slot assignment for `supplier`. -/
def ColumnMap.setSupplier (m : ColumnMap) (i : Nat) : ColumnMap := { m with supplier := some i }

/-- Slot assignment for `price`. -/
def ColumnMap.setPrice (m : ColumnMap) (i : Nat) : ColumnMap := { m with price := some i }

/-- Slot assignment for `currency`. -/
def ColumnMap.setCurrency (m : ColumnMap) (i : Nat) : ColumnMap := { m with currency := some i }

/-- Slot assignment for `quantity`. -/
def ColumnMap.setQuantity (m : ColumnMap) (i : Nat) : ColumnMap := { m with quantity := some i }

/-- Slot assignment for `min_order_qty`. -/
def ColumnMap.setMinOrder (m : ColumnMap) (i : Nat) : ColumnMap := { m with min_order_qty := some i }

/-- Slot assignment for `stock`. -/
def ColumnMap.setStock (m : ColumnMap) (i : Nat) : ColumnMap := { m with stock := some i }

/-- Slot assignment for `stock_code`. -/
def ColumnMap.setStockCode (m : ColumnMap) (i : Nat) : ColumnMap := { m with stock_code := some i }

/-- Slot assignment for `weight`. -/
def ColumnMap.setWeight (m : ColumnMap) (i : Nat) : ColumnMap := { m with weight := some i }

/-- Slot assignment for `weight_unit`. -/
def ColumnMap.setWeightUnit (m : ColumnMap) (i : Nat) : ColumnMap := { m with weight_unit := some i }

/-- Slot assignment for `volume`. -/
def ColumnMap.setVolume (m : ColumnMap) (i : Nat) : ColumnMap := { m with volume := some i }

/-- Slot assignment for `delivery_days`. -/
def ColumnMap.setDelivery (m : ColumnMap) (i : Nat) : ColumnMap := { m with delivery_days := some i }

/-- Slot assignment for `category`. -/
def ColumnMap.setCategory (m : ColumnMap) (i : Nat) : ColumnMap := { m with category := some i }

/-- Slot assignment for `subcategory`. -/
def ColumnMap.setSubcategory (m : ColumnMap) (i : Nat) : ColumnMap := { m with subcategory := some i }

/-- One `if slot.is_none() && predicate(header) { slot = Some(i); continue }`
arm of the header loop, as data: its header predicate, the slot it reads,
and the assignment it performs. -/
structure FieldRule where
  pred : List Char → Bool
  get : ColumnMap → Option Nat
  set : ColumnMap → Nat → ColumnMap

/-- The ordered arms of the header loop in `ColumnMap::from_headers`
(lines 129–270), in source order.  (In the `stock` arm the source writes
the two conjuncts of the guard in the other order; both are effect-free,
so the guard is the same.) -/
def headerRules : List FieldRule :=
  [⟨partNumberHeaderPred, (fun m => m.part_number), ColumnMap.setPartNumber⟩,
   ⟨descriptionHeaderPred, (fun m => m.description), ColumnMap.setDescription⟩,
   ⟨brandHeaderPred, (fun m => m.brand), ColumnMap.setBrand⟩,
   ⟨supplierHeaderPred, (fun m => m.supplier), ColumnMap.setSupplier⟩,
   ⟨priceHeaderPred, (fun m => m.price), ColumnMap.setPrice⟩,
   ⟨currencyHeaderPred, (fun m => m.currency), ColumnMap.setCurrency⟩,
   ⟨quantityHeaderPred, (fun m => m.quantity), ColumnMap.setQuantity⟩,
   ⟨minOrderHeaderPred, (fun m => m.min_order_qty), ColumnMap.setMinOrder⟩,
   ⟨stockHeaderPred, (fun m => m.stock), ColumnMap.setStock⟩,
   ⟨stockCodeHeaderPred, (fun m => m.stock_code), ColumnMap.setStockCode⟩,
   ⟨weightHeaderPred, (fun m => m.weight), ColumnMap.setWeight⟩,
   ⟨weightUnitHeaderPred, (fun m => m.weight_unit), ColumnMap.setWeightUnit⟩,
   ⟨volumeHeaderPred, (fun m => m.volume), ColumnMap.setVolume⟩,
   ⟨deliveryHeaderPred, (fun m => m.delivery_days), ColumnMap.setDelivery⟩,
   ⟨categoryHeaderPred, (fun m => m.category), ColumnMap.setCategory⟩,
   ⟨subcategoryHeaderPred, (fun m => m.subcategory), ColumnMap.setSubcategory⟩]

/-- First-match evaluation of the loop arms: the first rule whose slot is
unfilled and whose predicate matches the (already normalised) header
captures the column and ends the iteration (`continue`); otherwise the
next arm is tried. -/
def applyRules (i : Nat) (hl : List Char) : List FieldRule → ColumnMap → ColumnMap
  | [], m => m
  | r :: rs, m =>
      if r.get m = none ∧ r.pred hl = true then r.set m i
      else applyRules i hl rs m

/-- One iteration of the header loop: normalise the header cell, then run
the arms in source order. -/
def stepHeader (m : ColumnMap) (i : Nat) (h : List Char) : ColumnMap :=
  applyRules i (normHeader h) headerRules m

/-- The indexed left-to-right header scan. -/
def fromHeadersAux (m : ColumnMap) (i : Nat) : List (List Char) → ColumnMap
  | [] => m
  | h :: hs => fromHeadersAux (stepHeader m i h) (i + 1) hs

/-- `ColumnMap::from_headers`. -/
def ColumnMap.from_headers (headers : List (List Char)) : ColumnMap :=
  fromHeadersAux emptyColumnMap 0 headers

/-- `m'` keeps every slot already filled in `m` (same index). -/
def ColumnMap.Extends (m m' : ColumnMap) : Prop :=
  (m.part_number ≠ none → m'.part_number = m.part_number)
  ∧ (m.description ≠ none → m'.description = m.description)
  ∧ (m.brand ≠ none → m'.brand = m.brand)
  ∧ (m.supplier ≠ none → m'.supplier = m.supplier)
  ∧ (m.price ≠ none → m'.price = m.price)
  ∧ (m.currency ≠ none → m'.currency = m.currency)
  ∧ (m.quantity ≠ none → m'.quantity = m.quantity)
  ∧ (m.min_order_qty ≠ none → m'.min_order_qty = m.min_order_qty)
  ∧ (m.stock ≠ none → m'.stock = m.stock)
  ∧ (m.stock_code ≠ none → m'.stock_code = m.stock_code)
  ∧ (m.weight ≠ none → m'.weight = m.weight)
  ∧ (m.weight_unit ≠ none → m'.weight_unit = m.weight_unit)
  ∧ (m.volume ≠ none → m'.volume = m.volume)
  ∧ (m.delivery_days ≠ none → m'.delivery_days = m.delivery_days)
  ∧ (m.category ≠ none → m'.category = m.category)
  ∧ (m.subcategory ≠ none → m'.subcategory = m.subcategory)

/-- The 16 slots of a `ColumnMap`, in source order. -/
def ColumnMap.slots (m : ColumnMap) : List (Option Nat) :=
  [m.part_number, m.description, m.brand, m.supplier, m.price, m.currency,
   m.quantity, m.min_order_qty, m.stock, m.stock_code, m.weight,
   m.weight_unit, m.volume, m.delivery_days, m.category, m.subcategory]


/-! ### Lemmas about the column resolver -/

lemma applyRules_get_preserved (g : ColumnMap → Option Nat) (rs : List FieldRule)
    (hrs : ∀ r ∈ rs, (∀ m i, g (r.set m i) = g m) ∨ r.get = g)
    (i : Nat) (hl : List Char) (m : ColumnMap) (hne : g m ≠ none) :
    g (applyRules i hl rs m) = g m := by
  induction rs with
  | nil => rfl
  | cons r rs ih =>
      simp only [applyRules]
      split_ifs with hc
      · rcases hrs r (List.mem_cons_self r rs) with hset | hget
        · exact hset m i
        · exact absurd (hget ▸ hc.1) hne
      · exact ih (fun r hr => hrs r (List.mem_cons_of_mem _ hr))

lemma rulesPreserve_pn : ∀ r ∈ headerRules,
    (∀ m i, (FieldRule.set r m i).part_number = m.part_number) ∨ r.get = (fun m => m.part_number) := by
  intro r hr
  simp only [headerRules, List.mem_cons, List.not_mem_nil, or_false] at hr
  rcases hr with rfl|rfl|rfl|rfl|rfl|rfl|rfl|rfl|rfl|rfl|rfl|rfl|rfl|rfl|rfl|rfl
  · right; rfl
  · left; intro m i; rfl
  · left; intro m i; rfl
  · left; intro m i; rfl
  · left; intro m i; rfl
  · left; intro m i; rfl
  · left; intro m i; rfl
  · left; intro m i; rfl
  · left; intro m i; rfl
  · left; intro m i; rfl
  · left; intro m i; rfl
  · left; intro m i; rfl
  · left; intro m i; rfl
  · left; intro m i; rfl
  · left; intro m i; rfl
  · left; intro m i; rfl

lemma rulesPreserve_desc : ∀ r ∈ headerRules,
    (∀ m i, (FieldRule.set r m i).description = m.description) ∨ r.get = (fun m => m.description) := by
  intro r hr
  simp only [headerRules, List.mem_cons, List.not_mem_nil, or_false] at hr
  rcases hr with rfl|rfl|rfl|rfl|rfl|rfl|rfl|rfl|rfl|rfl|rfl|rfl|rfl|rfl|rfl|rfl
  · left; intro m i; rfl
  · right; rfl
  · left; intro m i; rfl
  · left; intro m i; rfl
  · left; intro m i; rfl
  · left; intro m i; rfl
  · left; intro m i; rfl
  · left; intro m i; rfl
  · left; intro m i; rfl
  · left; intro m i; rfl
  · left; intro m i; rfl
  · left; intro m i; rfl
  · left; intro m i; rfl
  · left; intro m i; rfl
  · left; intro m i; rfl
  · left; intro m i; rfl

lemma rulesPreserve_brand : ∀ r ∈ headerRules,
    (∀ m i, (FieldRule.set r m i).brand = m.brand) ∨ r.get = (fun m => m.brand) := by
  intro r hr
  simp only [headerRules, List.mem_cons, List.not_mem_nil, or_false] at hr
  rcases hr with rfl|rfl|rfl|rfl|rfl|rfl|rfl|rfl|rfl|rfl|rfl|rfl|rfl|rfl|rfl|rfl
  · left; intro m i; rfl
  · left; intro m i; rfl
  · right; rfl
  · left; intro m i; rfl
  · left; intro m i; rfl
  · left; intro m i; rfl
  · left; intro m i; rfl
  · left; intro m i; rfl
  · left; intro m i; rfl
  · left; intro m i; rfl
  · left; intro m i; rfl
  · left; intro m i; rfl
  · left; intro m i; rfl
  · left; intro m i; rfl
  · left; intro m i; rfl
  · left; intro m i; rfl

lemma rulesPreserve_sup : ∀ r ∈ headerRules,
    (∀ m i, (FieldRule.set r m i).supplier = m.supplier) ∨ r.get = (fun m => m.supplier) := by
  intro r hr
  simp only [headerRules, List.mem_cons, List.not_mem_nil, or_false] at hr
  rcases hr with rfl|rfl|rfl|rfl|rfl|rfl|rfl|rfl|rfl|rfl|rfl|rfl|rfl|rfl|rfl|rfl
  · left; intro m i; rfl
  · left; intro m i; rfl
  · left; intro m i; rfl
  · right; rfl
  · left; intro m i; rfl
  · left; intro m i; rfl
  · left; intro m i; rfl
  · left; intro m i; rfl
  · left; intro m i; rfl
  · left; intro m i; rfl
  · left; intro m i; rfl
  · left; intro m i; rfl
  · left; intro m i; rfl
  · left; intro m i; rfl
  · left; intro m i; rfl
  · left; intro m i; rfl

lemma rulesPreserve_price : ∀ r ∈ headerRules,
    (∀ m i, (FieldRule.set r m i).price = m.price) ∨ r.get = (fun m => m.price) := by
  intro r hr
  simp only [headerRules, List.mem_cons, List.not_mem_nil, or_false] at hr
  rcases hr with rfl|rfl|rfl|rfl|rfl|rfl|rfl|rfl|rfl|rfl|rfl|rfl|rfl|rfl|rfl|rfl
  · left; intro m i; rfl
  · left; intro m i; rfl
  · left; intro m i; rfl
  · left; intro m i; rfl
  · right; rfl
  · left; intro m i; rfl
  · left; intro m i; rfl
  · left; intro m i; rfl
  · left; intro m i; rfl
  · left; intro m i; rfl
  · left; intro m i; rfl
  · left; intro m i; rfl
  · left; intro m i; rfl
  · left; intro m i; rfl
  · left; intro m i; rfl
  · left; intro m i; rfl

lemma rulesPreserve_curr : ∀ r ∈ headerRules,
    (∀ m i, (FieldRule.set r m i).currency = m.currency) ∨ r.get = (fun m => m.currency) := by
  intro r hr
  simp only [headerRules, List.mem_cons, List.not_mem_nil, or_false] at hr
  rcases hr with rfl|rfl|rfl|rfl|rfl|rfl|rfl|rfl|rfl|rfl|rfl|rfl|rfl|rfl|rfl|rfl
  · left; intro m i; rfl
  · left; intro m i; rfl
  · left; intro m i; rfl
  · left; intro m i; rfl
  · left; intro m i; rfl
  · right; rfl
  · left; intro m i; rfl
  · left; intro m i; rfl
  · left; intro m i; rfl
  · left; intro m i; rfl
  · left; intro m i; rfl
  · left; intro m i; rfl
  · left; intro m i; rfl
  · left; intro m i; rfl
  · left; intro m i; rfl
  · left; intro m i; rfl

lemma rulesPreserve_qty : ∀ r ∈ headerRules,
    (∀ m i, (FieldRule.set r m i).quantity = m.quantity) ∨ r.get = (fun m => m.quantity) := by
  intro r hr
  simp only [headerRules, List.mem_cons, List.not_mem_nil, or_false] at hr
  rcases hr with rfl|rfl|rfl|rfl|rfl|rfl|rfl|rfl|rfl|rfl|rfl|rfl|rfl|rfl|rfl|rfl
  · left; intro m i; rfl
  · left; intro m i; rfl
  · left; intro m i; rfl
  · left; intro m i; rfl
  · left; intro m i; rfl
  · left; intro m i; rfl
  · right; rfl
  · left; intro m i; rfl
  · left; intro m i; rfl
  · left; intro m i; rfl
  · left; intro m i; rfl
  · left; intro m i; rfl
  · left; intro m i; rfl
  · left; intro m i; rfl
  · left; intro m i; rfl
  · left; intro m i; rfl

lemma rulesPreserve_moq : ∀ r ∈ headerRules,
    (∀ m i, (FieldRule.set r m i).min_order_qty = m.min_order_qty) ∨ r.get = (fun m => m.min_order_qty) := by
  intro r hr
  simp only [headerRules, List.mem_cons, List.not_mem_nil, or_false] at hr
  rcases hr with rfl|rfl|rfl|rfl|rfl|rfl|rfl|rfl|rfl|rfl|rfl|rfl|rfl|rfl|rfl|rfl
  · left; intro m i; rfl
  · left; intro m i; rfl
  · left; intro m i; rfl
  · left; intro m i; rfl
  · left; intro m i; rfl
  · left; intro m i; rfl
  · left; intro m i; rfl
  · right; rfl
  · left; intro m i; rfl
  · left; intro m i; rfl
  · left; intro m i; rfl
  · left; intro m i; rfl
  · left; intro m i; rfl
  · left; intro m i; rfl
  · left; intro m i; rfl
  · left; intro m i; rfl

lemma rulesPreserve_stock : ∀ r ∈ headerRules,
    (∀ m i, (FieldRule.set r m i).stock = m.stock) ∨ r.get = (fun m => m.stock) := by
  intro r hr
  simp only [headerRules, List.mem_cons, List.not_mem_nil, or_false] at hr
  rcases hr with rfl|rfl|rfl|rfl|rfl|rfl|rfl|rfl|rfl|rfl|rfl|rfl|rfl|rfl|rfl|rfl
  · left; intro m i; rfl
  · left; intro m i; rfl
  · left; intro m i; rfl
  · left; intro m i; rfl
  · left; intro m i; rfl
  · left; intro m i; rfl
  · left; intro m i; rfl
  · left; intro m i; rfl
  · right; rfl
  · left; intro m i; rfl
  · left; intro m i; rfl
  · left; intro m i; rfl
  · left; intro m i; rfl
  · left; intro m i; rfl
  · left; intro m i; rfl
  · left; intro m i; rfl

lemma rulesPreserve_sc : ∀ r ∈ headerRules,
    (∀ m i, (FieldRule.set r m i).stock_code = m.stock_code) ∨ r.get = (fun m => m.stock_code) := by
  intro r hr
  simp only [headerRules, List.mem_cons, List.not_mem_nil, or_false] at hr
  rcases hr with rfl|rfl|rfl|rfl|rfl|rfl|rfl|rfl|rfl|rfl|rfl|rfl|rfl|rfl|rfl|rfl
  · left; intro m i; rfl
  · left; intro m i; rfl
  · left; intro m i; rfl
  · left; intro m i; rfl
  · left; intro m i; rfl
  · left; intro m i; rfl
  · left; intro m i; rfl
  · left; intro m i; rfl
  · left; intro m i; rfl
  · right; rfl
  · left; intro m i; rfl
  · left; intro m i; rfl
  · left; intro m i; rfl
  · left; intro m i; rfl
  · left; intro m i; rfl
  · left; intro m i; rfl

lemma rulesPreserve_wt : ∀ r ∈ headerRules,
    (∀ m i, (FieldRule.set r m i).weight = m.weight) ∨ r.get = (fun m => m.weight) := by
  intro r hr
  simp only [headerRules, List.mem_cons, List.not_mem_nil, or_false] at hr
  rcases hr with rfl|rfl|rfl|rfl|rfl|rfl|rfl|rfl|rfl|rfl|rfl|rfl|rfl|rfl|rfl|rfl
  · left; intro m i; rfl
  · left; intro m i; rfl
  · left; intro m i; rfl
  · left; intro m i; rfl
  · left; intro m i; rfl
  · left; intro m i; rfl
  · left; intro m i; rfl
  · left; intro m i; rfl
  · left; intro m i; rfl
  · left; intro m i; rfl
  · right; rfl
  · left; intro m i; rfl
  · left; intro m i; rfl
  · left; intro m i; rfl
  · left; intro m i; rfl
  · left; intro m i; rfl

lemma rulesPreserve_wu : ∀ r ∈ headerRules,
    (∀ m i, (FieldRule.set r m i).weight_unit = m.weight_unit) ∨ r.get = (fun m => m.weight_unit) := by
  intro r hr
  simp only [headerRules, List.mem_cons, List.not_mem_nil, or_false] at hr
  rcases hr with rfl|rfl|rfl|rfl|rfl|rfl|rfl|rfl|rfl|rfl|rfl|rfl|rfl|rfl|rfl|rfl
  · left; intro m i; rfl
  · left; intro m i; rfl
  · left; intro m i; rfl
  · left; intro m i; rfl
  · left; intro m i; rfl
  · left; intro m i; rfl
  · left; intro m i; rfl
  · left; intro m i; rfl
  · left; intro m i; rfl
  · left; intro m i; rfl
  · left; intro m i; rfl
  · right; rfl
  · left; intro m i; rfl
  · left; intro m i; rfl
  · left; intro m i; rfl
  · left; intro m i; rfl

lemma rulesPreserve_vol : ∀ r ∈ headerRules,
    (∀ m i, (FieldRule.set r m i).volume = m.volume) ∨ r.get = (fun m => m.volume) := by
  intro r hr
  simp only [headerRules, List.mem_cons, List.not_mem_nil, or_false] at hr
  rcases hr with rfl|rfl|rfl|rfl|rfl|rfl|rfl|rfl|rfl|rfl|rfl|rfl|rfl|rfl|rfl|rfl
  · left; intro m i; rfl
  · left; intro m i; rfl
  · left; intro m i; rfl
  · left; intro m i; rfl
  · left; intro m i; rfl
  · left; intro m i; rfl
  · left; intro m i; rfl
  · left; intro m i; rfl
  · left; intro m i; rfl
  · left; intro m i; rfl
  · left; intro m i; rfl
  · left; intro m i; rfl
  · right; rfl
  · left; intro m i; rfl
  · left; intro m i; rfl
  · left; intro m i; rfl

lemma rulesPreserve_dd : ∀ r ∈ headerRules,
    (∀ m i, (FieldRule.set r m i).delivery_days = m.delivery_days) ∨ r.get = (fun m => m.delivery_days) := by
  intro r hr
  simp only [headerRules, List.mem_cons, List.not_mem_nil, or_false] at hr
  rcases hr with rfl|rfl|rfl|rfl|rfl|rfl|rfl|rfl|rfl|rfl|rfl|rfl|rfl|rfl|rfl|rfl
  · left; intro m i; rfl
  · left; intro m i; rfl
  · left; intro m i; rfl
  · left; intro m i; rfl
  · left; intro m i; rfl
  · left; intro m i; rfl
  · left; intro m i; rfl
  · left; intro m i; rfl
  · left; intro m i; rfl
  · left; intro m i; rfl
  · left; intro m i; rfl
  · left; intro m i; rfl
  · left; intro m i; rfl
  · right; rfl
  · left; intro m i; rfl
  · left; intro m i; rfl

lemma rulesPreserve_cat : ∀ r ∈ headerRules,
    (∀ m i, (FieldRule.set r m i).category = m.category) ∨ r.get = (fun m => m.category) := by
  intro r hr
  simp only [headerRules, List.mem_cons, List.not_mem_nil, or_false] at hr
  rcases hr with rfl|rfl|rfl|rfl|rfl|rfl|rfl|rfl|rfl|rfl|rfl|rfl|rfl|rfl|rfl|rfl
  · left; intro m i; rfl
  · left; intro m i; rfl
  · left; intro m i; rfl
  · left; intro m i; rfl
  · left; intro m i; rfl
  · left; intro m i; rfl
  · left; intro m i; rfl
  · left; intro m i; rfl
  · left; intro m i; rfl
  · left; intro m i; rfl
  · left; intro m i; rfl
  · left; intro m i; rfl
  · left; intro m i; rfl
  · left; intro m i; rfl
  · right; rfl
  · left; intro m i; rfl

lemma rulesPreserve_subcat : ∀ r ∈ headerRules,
    (∀ m i, (FieldRule.set r m i).subcategory = m.subcategory) ∨ r.get = (fun m => m.subcategory) := by
  intro r hr
  simp only [headerRules, List.mem_cons, List.not_mem_nil, or_false] at hr
  rcases hr with rfl|rfl|rfl|rfl|rfl|rfl|rfl|rfl|rfl|rfl|rfl|rfl|rfl|rfl|rfl|rfl
  · left; intro m i; rfl
  · left; intro m i; rfl
  · left; intro m i; rfl
  · left; intro m i; rfl
  · left; intro m i; rfl
  · left; intro m i; rfl
  · left; intro m i; rfl
  · left; intro m i; rfl
  · left; intro m i; rfl
  · left; intro m i; rfl
  · left; intro m i; rfl
  · left; intro m i; rfl
  · left; intro m i; rfl
  · left; intro m i; rfl
  · left; intro m i; rfl
  · right; rfl

lemma stepHeader_extends (m : ColumnMap) (i : Nat) (h : List Char) :
    ColumnMap.Extends m (stepHeader m i h) := by
  refine ⟨?_, ?_, ?_, ?_, ?_, ?_, ?_, ?_, ?_, ?_, ?_, ?_, ?_, ?_, ?_, ?_⟩ <;> intro hne
  · exact applyRules_get_preserved (fun m => m.part_number) headerRules rulesPreserve_pn i (normHeader h) m hne
  · exact applyRules_get_preserved (fun m => m.description) headerRules rulesPreserve_desc i (normHeader h) m hne
  · exact applyRules_get_preserved (fun m => m.brand) headerRules rulesPreserve_brand i (normHeader h) m hne
  · exact applyRules_get_preserved (fun m => m.supplier) headerRules rulesPreserve_sup i (normHeader h) m hne
  · exact applyRules_get_preserved (fun m => m.price) headerRules rulesPreserve_price i (normHeader h) m hne
  · exact applyRules_get_preserved (fun m => m.currency) headerRules rulesPreserve_curr i (normHeader h) m hne
  · exact applyRules_get_preserved (fun m => m.quantity) headerRules rulesPreserve_qty i (normHeader h) m hne
  · exact applyRules_get_preserved (fun m => m.min_order_qty) headerRules rulesPreserve_moq i (normHeader h) m hne
  · exact applyRules_get_preserved (fun m => m.stock) headerRules rulesPreserve_stock i (normHeader h) m hne
  · exact applyRules_get_preserved (fun m => m.stock_code) headerRules rulesPreserve_sc i (normHeader h) m hne
  · exact applyRules_get_preserved (fun m => m.weight) headerRules rulesPreserve_wt i (normHeader h) m hne
  · exact applyRules_get_preserved (fun m => m.weight_unit) headerRules rulesPreserve_wu i (normHeader h) m hne
  · exact applyRules_get_preserved (fun m => m.volume) headerRules rulesPreserve_vol i (normHeader h) m hne
  · exact applyRules_get_preserved (fun m => m.delivery_days) headerRules rulesPreserve_dd i (normHeader h) m hne
  · exact applyRules_get_preserved (fun m => m.category) headerRules rulesPreserve_cat i (normHeader h) m hne
  · exact applyRules_get_preserved (fun m => m.subcategory) headerRules rulesPreserve_subcat i (normHeader h) m hne

lemma extends_rfl (m : ColumnMap) : ColumnMap.Extends m m := by
  refine ⟨?_, ?_, ?_, ?_, ?_, ?_, ?_, ?_, ?_, ?_, ?_, ?_, ?_, ?_, ?_, ?_⟩ <;> intro _ <;> rfl

lemma extends_trans (a b c : ColumnMap) (hab : ColumnMap.Extends a b)
    (hbc : ColumnMap.Extends b c) : ColumnMap.Extends a c := by
  obtain ⟨p1 , p2 , p3 , p4 , p5 , p6 , p7 , p8 , p9 , p10 , p11 , p12 , p13 , p14 , p15 , p16⟩ := hab
  obtain ⟨q1 , q2 , q3 , q4 , q5 , q6 , q7 , q8 , q9 , q10 , q11 , q12 , q13 , q14 , q15 , q16⟩ := hbc
  refine ⟨?_, ?_, ?_, ?_, ?_, ?_, ?_, ?_, ?_, ?_, ?_, ?_, ?_, ?_, ?_, ?_⟩
  · intro hne
    have hb := p1 hne
    rw [q1 (by rw [hb]; exact hne), hb]
  · intro hne
    have hb := p2 hne
    rw [q2 (by rw [hb]; exact hne), hb]
  · intro hne
    have hb := p3 hne
    rw [q3 (by rw [hb]; exact hne), hb]
  · intro hne
    have hb := p4 hne
    rw [q4 (by rw [hb]; exact hne), hb]
  · intro hne
    have hb := p5 hne
    rw [q5 (by rw [hb]; exact hne), hb]
  · intro hne
    have hb := p6 hne
    rw [q6 (by rw [hb]; exact hne), hb]
  · intro hne
    have hb := p7 hne
    rw [q7 (by rw [hb]; exact hne), hb]
  · intro hne
    have hb := p8 hne
    rw [q8 (by rw [hb]; exact hne), hb]
  · intro hne
    have hb := p9 hne
    rw [q9 (by rw [hb]; exact hne), hb]
  · intro hne
    have hb := p10 hne
    rw [q10 (by rw [hb]; exact hne), hb]
  · intro hne
    have hb := p11 hne
    rw [q11 (by rw [hb]; exact hne), hb]
  · intro hne
    have hb := p12 hne
    rw [q12 (by rw [hb]; exact hne), hb]
  · intro hne
    have hb := p13 hne
    rw [q13 (by rw [hb]; exact hne), hb]
  · intro hne
    have hb := p14 hne
    rw [q14 (by rw [hb]; exact hne), hb]
  · intro hne
    have hb := p15 hne
    rw [q15 (by rw [hb]; exact hne), hb]
  · intro hne
    have hb := p16 hne
    rw [q16 (by rw [hb]; exact hne), hb]

lemma fromHeadersAux_extends (m : ColumnMap) (i : Nat) (hs : List (List Char)) :
    ColumnMap.Extends m (fromHeadersAux m i hs) := by
  induction hs generalizing m i with
  | nil => exact extends_rfl m
  | cons h t ih =>
      exact extends_trans _ _ _ (stepHeader_extends m i h) (ih (stepHeader m i h) (i + 1))

lemma fromHeadersAux_append (m : ColumnMap) (i : Nat) (l1 l2 : List (List Char)) :
    fromHeadersAux m i (l1 ++ l2) = fromHeadersAux (fromHeadersAux m i l1) (i + l1.length) l2 := by
  induction l1 generalizing m i with
  | nil => simp [fromHeadersAux]
  | cons h t ih =>
      simp only [List.cons_append, fromHeadersAux, List.length_cons, List.append_eq]
      rw [ih]
      congr 1
      omega

lemma applyRules_pn_none (i : Nat) (hl : List Char) (rs : List FieldRule) (m : ColumnMap)
    (hrs : ∀ r ∈ rs, (∀ m i, (FieldRule.set r m i).part_number = m.part_number) ∨ r.pred = partNumberHeaderPred)
    (hpred : partNumberHeaderPred hl = false) (hm : m.part_number = none) :
    (applyRules i hl rs m).part_number = none := by
  induction rs generalizing m with
  | nil => exact hm
  | cons r rs ih =>
      simp only [applyRules]
      split_ifs with hc
      · rcases hrs r (List.mem_cons_self r rs) with hset | hpeq
        · rw [hset]; exact hm
        · rw [hpeq] at hc
          rw [hpred] at hc
          exact absurd hc.2 Bool.false_ne_true
      · exact ih m (fun r hr => hrs r (List.mem_cons_of_mem _ hr)) hm

lemma rulesPred_pn : ∀ r ∈ headerRules,
    (∀ m i, (FieldRule.set r m i).part_number = m.part_number) ∨ r.pred = partNumberHeaderPred := by
  intro r hr
  simp only [headerRules, List.mem_cons, List.not_mem_nil, or_false] at hr
  rcases hr with rfl|rfl|rfl|rfl|rfl|rfl|rfl|rfl|rfl|rfl|rfl|rfl|rfl|rfl|rfl|rfl
  · right; rfl
  · left; intro m i; rfl
  · left; intro m i; rfl
  · left; intro m i; rfl
  · left; intro m i; rfl
  · left; intro m i; rfl
  · left; intro m i; rfl
  · left; intro m i; rfl
  · left; intro m i; rfl
  · left; intro m i; rfl
  · left; intro m i; rfl
  · left; intro m i; rfl
  · left; intro m i; rfl
  · left; intro m i; rfl
  · left; intro m i; rfl
  · left; intro m i; rfl

lemma fromHeadersAux_pn_none (i : Nat) (hs : List (List Char)) (m : ColumnMap)
    (hnone : ∀ h ∈ hs, partNumberHeaderPred (normHeader h) = false)
    (hm : m.part_number = none) :
    (fromHeadersAux m i hs).part_number = none := by
  induction hs generalizing m i with
  | nil => exact hm
  | cons h t ih =>
      refine ih (i + 1) (stepHeader m i h) (fun x hx => hnone x (List.mem_cons_of_mem _ hx)) ?_
      exact applyRules_pn_none i (normHeader h) headerRules m rulesPred_pn
        (hnone h (List.mem_cons_self h t)) hm

/-- If no header cell satisfies the part-number rule, the resolved map
has no part-number column. -/
lemma from_headers_pn_none (hs : List (List Char))
    (hnone : ∀ h ∈ hs, partNumberHeaderPred (normHeader h) = false) :
    (ColumnMap.from_headers hs).part_number = none :=
  fromHeadersAux_pn_none 0 hs emptyColumnMap hnone rfl


/-! ### At most one slot per header cell (C10 machinery) -/

/-- Indicator that a slot differs between two maps. -/
def diff1 (a b : Option Nat) : Nat := if a = b then 0 else 1

/-- Number of the 16 slots on which two column maps differ. -/
def changedCount (m mp : ColumnMap) : Nat :=
  diff1 m.part_number mp.part_number + diff1 m.description mp.description
    + diff1 m.brand mp.brand + diff1 m.supplier mp.supplier
    + diff1 m.price mp.price + diff1 m.currency mp.currency
    + diff1 m.quantity mp.quantity + diff1 m.min_order_qty mp.min_order_qty
    + diff1 m.stock mp.stock + diff1 m.stock_code mp.stock_code
    + diff1 m.weight mp.weight + diff1 m.weight_unit mp.weight_unit
    + diff1 m.volume mp.volume + diff1 m.delivery_days mp.delivery_days
    + diff1 m.category mp.category + diff1 m.subcategory mp.subcategory

lemma diff1_self (a : Option Nat) : diff1 a a = 0 := if_pos rfl

lemma diff1_le_one (a b : Option Nat) : diff1 a b ≤ 1 := by
  unfold diff1
  split <;> omega

lemma changedCount_self (m : ColumnMap) : changedCount m m = 0 := by
  simp [changedCount, diff1_self]

lemma applyRules_eq_or_set (i : Nat) (hl : List Char) (rs : List FieldRule) (m : ColumnMap) :
    applyRules i hl rs m = m ∨ ∃ r ∈ rs, applyRules i hl rs m = r.set m i := by
  induction rs with
  | nil => left; rfl
  | cons r rs ih =>
      simp only [applyRules]
      split_ifs with hc
      · right; exact ⟨r, List.mem_cons_self r rs, rfl⟩
      · rcases ih with he | ⟨r2, hr2, he⟩
        · left; exact he
        · right; exact ⟨r2, List.mem_cons_of_mem _ hr2, he⟩

lemma changed_setPartNumber (m : ColumnMap) (i : Nat) : changedCount m (m.setPartNumber i) ≤ 1 := by
  simp only [changedCount, ColumnMap.setPartNumber, diff1_self]
  simpa using diff1_le_one m.part_number (some i)

lemma changed_setDescription (m : ColumnMap) (i : Nat) : changedCount m (m.setDescription i) ≤ 1 := by
  simp only [changedCount, ColumnMap.setDescription, diff1_self]
  simpa using diff1_le_one m.description (some i)

lemma changed_setBrand (m : ColumnMap) (i : Nat) : changedCount m (m.setBrand i) ≤ 1 := by
  simp only [changedCount, ColumnMap.setBrand, diff1_self]
  simpa using diff1_le_one m.brand (some i)

lemma changed_setSupplier (m : ColumnMap) (i : Nat) : changedCount m (m.setSupplier i) ≤ 1 := by
  simp only [changedCount, ColumnMap.setSupplier, diff1_self]
  simpa using diff1_le_one m.supplier (some i)

lemma changed_setPrice (m : ColumnMap) (i : Nat) : changedCount m (m.setPrice i) ≤ 1 := by
  simp only [changedCount, ColumnMap.setPrice, diff1_self]
  simpa using diff1_le_one m.price (some i)

lemma changed_setCurrency (m : ColumnMap) (i : Nat) : changedCount m (m.setCurrency i) ≤ 1 := by
  simp only [changedCount, ColumnMap.setCurrency, diff1_self]
  simpa using diff1_le_one m.currency (some i)

lemma changed_setQuantity (m : ColumnMap) (i : Nat) : changedCount m (m.setQuantity i) ≤ 1 := by
  simp only [changedCount, ColumnMap.setQuantity, diff1_self]
  simpa using diff1_le_one m.quantity (some i)

lemma changed_setMinOrder (m : ColumnMap) (i : Nat) : changedCount m (m.setMinOrder i) ≤ 1 := by
  simp only [changedCount, ColumnMap.setMinOrder, diff1_self]
  simpa using diff1_le_one m.min_order_qty (some i)

lemma changed_setStock (m : ColumnMap) (i : Nat) : changedCount m (m.setStock i) ≤ 1 := by
  simp only [changedCount, ColumnMap.setStock, diff1_self]
  simpa using diff1_le_one m.stock (some i)

lemma changed_setStockCode (m : ColumnMap) (i : Nat) : changedCount m (m.setStockCode i) ≤ 1 := by
  simp only [changedCount, ColumnMap.setStockCode, diff1_self]
  simpa using diff1_le_one m.stock_code (some i)

lemma changed_setWeight (m : ColumnMap) (i : Nat) : changedCount m (m.setWeight i) ≤ 1 := by
  simp only [changedCount, ColumnMap.setWeight, diff1_self]
  simpa using diff1_le_one m.weight (some i)

lemma changed_setWeightUnit (m : ColumnMap) (i : Nat) : changedCount m (m.setWeightUnit i) ≤ 1 := by
  simp only [changedCount, ColumnMap.setWeightUnit, diff1_self]
  simpa using diff1_le_one m.weight_unit (some i)

lemma changed_setVolume (m : ColumnMap) (i : Nat) : changedCount m (m.setVolume i) ≤ 1 := by
  simp only [changedCount, ColumnMap.setVolume, diff1_self]
  simpa using diff1_le_one m.volume (some i)

lemma changed_setDelivery (m : ColumnMap) (i : Nat) : changedCount m (m.setDelivery i) ≤ 1 := by
  simp only [changedCount, ColumnMap.setDelivery, diff1_self]
  simpa using diff1_le_one m.delivery_days (some i)

lemma changed_setCategory (m : ColumnMap) (i : Nat) : changedCount m (m.setCategory i) ≤ 1 := by
  simp only [changedCount, ColumnMap.setCategory, diff1_self]
  simpa using diff1_le_one m.category (some i)

lemma changed_setSubcategory (m : ColumnMap) (i : Nat) : changedCount m (m.setSubcategory i) ≤ 1 := by
  simp only [changedCount, ColumnMap.setSubcategory, diff1_self]
  simpa using diff1_le_one m.subcategory (some i)

/-- Processing one header cell changes at most one slot of the map. -/
lemma stepHeader_changedCount (m : ColumnMap) (i : Nat) (h : List Char) :
    changedCount m (stepHeader m i h) ≤ 1 := by
  rcases applyRules_eq_or_set i (normHeader h) headerRules m with he | ⟨r, hr, he⟩
  · rw [stepHeader, he, changedCount_self]
    omega
  · rw [stepHeader, he]
    simp only [headerRules, List.mem_cons, List.not_mem_nil, or_false] at hr
    rcases hr with rfl|rfl|rfl|rfl|rfl|rfl|rfl|rfl|rfl|rfl|rfl|rfl|rfl|rfl|rfl|rfl
    · exact changed_setPartNumber m i
    · exact changed_setDescription m i
    · exact changed_setBrand m i
    · exact changed_setSupplier m i
    · exact changed_setPrice m i
    · exact changed_setCurrency m i
    · exact changed_setQuantity m i
    · exact changed_setMinOrder m i
    · exact changed_setStock m i
    · exact changed_setStockCode m i
    · exact changed_setWeight m i
    · exact changed_setWeightUnit m i
    · exact changed_setVolume m i
    · exact changed_setDelivery m i
    · exact changed_setCategory m i
    · exact changed_setSubcategory m i

/-! ### Output records and row projection -/

/-- NDJSON (document-store) record: full schema including `imported_at`. -/
structure PartRecord where
  part_number : List Char
  description : List Char
  brand : List Char
  supplier : List Char
  price : ℚ
  currency : List Char
  quantity : Int
  min_order_qty : Int
  stock : List Char
  stock_code : List Char
  weight : ℚ
  weight_unit : List Char
  volume : ℚ
  delivery_days : Int
  category : List Char
  subcategory : List Char
  integration : List Char
  integration_name : List Char
  file_name : List Char
  imported_at : List Char
deriving DecidableEq, Repr

/-- Search-engine (`_bulk`) record: same schema minus `imported_at`. -/
structure PartRecordES where
  part_number : List Char
  description : List Char
  brand : List Char
  supplier : List Char
  price : ℚ
  currency : List Char
  quantity : Int
  min_order_qty : Int
  stock : List Char
  stock_code : List Char
  weight : ℚ
  weight_unit : List Char
  volume : ℚ
  delivery_days : Int
  category : List Char
  subcategory : List Char
  integration : List Char
  integration_name : List Char
  file_name : List Char
deriving DecidableEq, Repr

/-- Projection of the full record onto the search-engine schema:
copies every shared field and drops `imported_at`. -/
def PartRecord.toES (d : PartRecord) : PartRecordES :=
  { part_number := d.part_number
    description := d.description
    brand := d.brand
    supplier := d.supplier
    price := d.price
    currency := d.currency
    quantity := d.quantity
    min_order_qty := d.min_order_qty
    stock := d.stock
    stock_code := d.stock_code
    weight := d.weight
    weight_unit := d.weight_unit
    volume := d.volume
    delivery_days := d.delivery_days
    category := d.category
    subcategory := d.subcategory
    integration := d.integration
    integration_name := d.integration_name
    file_name := d.file_name }

/-- `get_field`: trimmed, quote-stripped cell at an optional index;
empty when the index is absent or out of range. -/
def get_field (record : List (List Char)) (idx : Option Nat) : List Char :=
  match idx with
  | some i => trimQuotes (trimWs (record.getD i []))
  | none => []

/-- The body of the row loop in `process_file` (lines 531–612): reject a
row whose part-number cell is empty, otherwise resolve stock code,
defaults and numeric fields, and build the two records. -/
def projectRow (col_map : ColumnMap) (file_name filename_stock_code : List Char)
    (integration_id integration_name imported_at : List Char)
    (row : List (List Char)) : Option (PartRecord × PartRecordES) :=
  let part_number := get_field row col_map.part_number
  if part_number = [] then none
  else
    let raw_stock_code := get_field row col_map.stock_code
    let stock_code := if raw_stock_code = [] then filename_stock_code else raw_stock_code
    let currency_raw := get_field row col_map.currency
    let currency := if currency_raw = [] then ("AED").toList else currency_raw
    let weight_unit_raw := get_field row col_map.weight_unit
    let weight_unit := if weight_unit_raw = [] then ("kg").toList else weight_unit_raw
    let stock_raw := get_field row col_map.stock
    let stock := if stock_raw = [] then ("unknown").toList else stock_raw
    let min_order_raw := parse_i64 (get_field row col_map.min_order_qty)
    let min_order_qty := if min_order_raw < 1 then 1 else min_order_raw
    let doc : PartRecord :=
      { part_number := part_number
        description := get_field row col_map.description
        brand := get_field row col_map.brand
        supplier := get_field row col_map.supplier
        price := parse_f64 (get_field row col_map.price)
        currency := currency
        quantity := parse_i64 (get_field row col_map.quantity)
        min_order_qty := min_order_qty
        stock := stock
        stock_code := stock_code
        weight := parse_f64 (get_field row col_map.weight)
        weight_unit := weight_unit
        volume := parse_f64 (get_field row col_map.volume)
        delivery_days := parse_i64 (get_field row col_map.delivery_days)
        category := get_field row col_map.category
        subcategory := get_field row col_map.subcategory
        integration := integration_id
        integration_name := integration_name
        file_name := file_name
        imported_at := imported_at }
    let es_doc : PartRecordES :=
      { part_number := part_number
        description := doc.description
        brand := doc.brand
        supplier := doc.supplier
        price := doc.price
        currency := currency
        quantity := doc.quantity
        min_order_qty := doc.min_order_qty
        stock := stock
        stock_code := stock_code
        weight := doc.weight
        weight_unit := weight_unit
        volume := doc.volume
        delivery_days := doc.delivery_days
        category := doc.category
        subcategory := doc.subcategory
        integration := integration_id
        integration_name := integration_name
        file_name := file_name }
    some (doc, es_doc)

/-! ### The per-file pipeline (`process_file`) -/

/-- Environment model of one CSV file: the outcomes of the fallible
filesystem operations `process_file` performs, and the parsed rows
(`none` marks a row the CSV reader rejects as malformed, which the loop
skips). -/
structure CsvFileModel where
  file_name : List Char
  openOk : Bool
  headerResult : Option (List (List Char))
  ndjsonCreateOk : Bool
  bulkCreateOk : Bool
  rows : List (Option (List (List Char)))
deriving DecidableEq, Repr

/-- Per-file result (`FileResult` in `main.rs`; wall-clock duration is
not modelled). -/
structure FileResult where
  file_name : List Char
  records : Nat
  ndjson_bytes : Nat
  bulk_bytes : Nat
  error : Option (List Char)
deriving DecidableEq, Repr

/-- Result of `process_file` plus the externally visible effects the
claims are about: which output files were created and which records were
streamed. -/
structure ProcessOutcome where
  result : FileResult
  ndjsonCreated : Bool
  bulkCreated : Bool
  emitted : List (PartRecord × PartRecordES)
deriving DecidableEq, Repr

/-- The fixed Elasticsearch action line written before every bulk
document, newline included. -/
def es_action_line (es_index_name : List Char) : List Char :=
  ("\x7b\"index\":\x7b\"_index\":\"").toList ++ es_index_name
    ++ ("\"\x7d\x7d\n").toList

/-- `process_file` (lines 392–687), with `szDoc`/`szEs` the byte sizes of
the serialized JSON documents (serde serialization is not re-modelled;
buffered writes are assumed to succeed).  The operations occur in source
order: open, header parse, column-map resolution and the part-number
check, creation of the `.ndjson` output, creation of the `.bulk` output,
then the row loop. -/
def process_file (m : CsvFileModel)
    (integration_id integration_name imported_at es_index_name : List Char)
    (szDoc : PartRecord → Nat) (szEs : PartRecordES → Nat) : ProcessOutcome :=
  if m.openOk = false then
    ⟨⟨m.file_name, 0, 0, 0, some (("open failed").toList)⟩, false, false, []⟩
  else
    match m.headerResult with
    | none =>
        ⟨⟨m.file_name, 0, 0, 0, some (("header parse failed").toList)⟩, false, false, []⟩
    | some headers =>
        let col_map := ColumnMap.from_headers headers
        if col_map.part_number = none then
          ⟨⟨m.file_name, 0, 0, 0, some (("no part number column detected").toList)⟩,
            false, false, []⟩
        else if m.ndjsonCreateOk = false then
          ⟨⟨m.file_name, 0, 0, 0, some (("create ndjson output failed").toList)⟩,
            false, false, []⟩
        else if m.bulkCreateOk = false then
          ⟨⟨m.file_name, 0, 0, 0, some (("create bulk output failed").toList)⟩,
            true, false, []⟩
        else
          let filename_stock_code := extract_stock_code_from_filename m.file_name
          let emitted := m.rows.filterMap (fun r =>
            match r with
            | none => none
            | some row =>
                projectRow col_map m.file_name filename_stock_code
                  integration_id integration_name imported_at row)
          let actionLen := (es_action_line es_index_name).length
          ⟨⟨m.file_name, emitted.length,
            (emitted.map (fun p => szDoc p.1 + 1)).sum,
            (emitted.map (fun p => actionLen + szEs p.2 + 1)).sum,
            none⟩, true, true, emitted⟩

/-! ### The batch orchestrator (`main`) -/

/-- Environment model of one run: the argument count and the outcomes of
the pre-flight filesystem operations, plus the enumerated CSV files. -/
structure RunModel where
  argc : Nat
  inputDirOk : Bool
  outputDirOk : Bool
  files : List CsvFileModel
deriving Repr

/-- The per-file results aggregated by `main`. -/
def mainResults (run : RunModel)
    (integration_id integration_name imported_at es_index_name : List Char)
    (szDoc : PartRecord → Nat) (szEs : PartRecordES → Nat) : List FileResult :=
  run.files.map (fun f =>
    (process_file f integration_id integration_name imported_at es_index_name
      szDoc szEs).result)

/-- The process exit status of `main` (lines 692–857): `1` on missing
arguments, absent input directory, uncreatable output directory, or an
empty file set; after processing, `1` exactly when some file recorded an
error and the total record count is zero, else `0`. -/
def mainExitCode (run : RunModel)
    (integration_id integration_name imported_at es_index_name : List Char)
    (szDoc : PartRecord → Nat) (szEs : PartRecordES → Nat) : Nat :=
  if run.argc < 3 then 1
  else if run.inputDirOk = false then 1
  else if run.outputDirOk = false then 1
  else if run.files = [] then 1
  else
    let results := mainResults run integration_id integration_name imported_at
      es_index_name szDoc szEs
    let total_records : Nat := (results.map (fun r => r.records)).sum
    let errors : List FileResult := results.filter (fun r => r.error.isSome)
    if errors = [] then 0
    else if total_records = 0 then 1
    else 0

end PartsTransform

namespace PartsTransform

lemma takeWhile_append_last (p : Char → Bool) (l : List Char) (x : Char)
    (hl : ∀ c ∈ l, p c = true) (hx : p x = false) :
    (l ++ [x]).takeWhile p = l := by
  induction l with
  | nil => simp [List.takeWhile, hx]
  | cons c cs ih =>
      simp only [List.cons_append, List.takeWhile_cons, hl c (List.mem_cons_self c cs), if_true]
      rw [ih (fun d hd => hl d (List.mem_cons_of_mem _ hd))]

lemma dropWhile_append_last (p : Char → Bool) (l : List Char) (x : Char)
    (hl : ∀ c ∈ l, p c = true) (hx : p x = false) :
    (l ++ [x]).dropWhile p = [x] := by
  induction l with
  | nil => simp [List.dropWhile, hx]
  | cons c cs ih =>
      simp only [List.cons_append, List.dropWhile_cons, hl c (List.mem_cons_self c cs), if_true]
      exact ih (fun d hd => hl d (List.mem_cons_of_mem _ hd))

lemma takeWhile_all (p : Char → Bool) (l : List Char) (hl : ∀ c ∈ l, p c = true) :
    l.takeWhile p = l := by
  induction l with
  | nil => rfl
  | cons c cs ih =>
      simp only [List.takeWhile_cons, hl c (List.mem_cons_self c cs), if_true]
      rw [ih (fun d hd => hl d (List.mem_cons_of_mem _ hd))]

lemma dropWhile_all (p : Char → Bool) (l : List Char) (hl : ∀ c ∈ l, p c = true) :
    l.dropWhile p = [] := by
  induction l with
  | nil => rfl
  | cons c cs ih =>
      simp only [List.dropWhile_cons, hl c (List.mem_cons_self c cs), if_true]
      exact ih (fun d hd => hl d (List.mem_cons_of_mem _ hd))

lemma validBody_append_dot (R : List Char) (hdot : ('.') ∉ R) :
    validBody (R ++ ['.']) = validBody R := by
  unfold validBody
  rw [List.all_append, List.any_append, List.count_append]
  have h0 : R.count '.' = 0 := List.count_eq_zero.mpr hdot
  rw [h0]
  simp [isDigitOrDot]

lemma bodyVal_append_dot (R : List Char) (hdot : ('.') ∉ R) :
    bodyVal (R ++ ['.']) = bodyVal R := by
  unfold bodyVal
  have hall : ∀ c ∈ R, (fun c => decide (c ≠ '.')) c = true := by
    intro c hc
    simp only [decide_eq_true_eq]
    intro he
    exact hdot (he ▸ hc)
  have hx : (fun c => decide (c ≠ '.')) '.' = false := by simp
  rw [takeWhile_append_last _ R _ hall hx, dropWhile_append_last _ R _ hall hx,
    takeWhile_all _ R hall, dropWhile_all _ R hall]
  rfl

lemma parseSign_dash (R : List Char) : parseSign ('-' :: R) = (true, R) := by
  simp [parseSign]

lemma parseSign_not_dash (c : Char) (R : List Char) (hc : ¬ c = '-') :
    parseSign (c :: R) = (false, c :: R) := by
  simp [parseSign, hc]

lemma parseRust_body_case (neg : Bool) (R : List Char) (hdot : ('.') ∉ R) :
    ((if validBody (R ++ ['.']) = true then
        some (if neg = true then -(bodyVal (R ++ ['.'])) else bodyVal (R ++ ['.']))
      else none).getD 0)
    = ((if validBody R = true then
        some (if neg = true then -(bodyVal R) else bodyVal R)
      else none).getD 0) := by
  rw [validBody_append_dot R hdot]
  by_cases hv : validBody R = true
  · rw [if_pos hv, if_pos hv, bodyVal_append_dot R hdot]
  · rw [if_neg hv, if_neg hv]

lemma parseRustF64_append_dot (B : List Char) (hdot : ('.') ∉ B) :
    (parseRustF64 (B ++ ['.'])).getD 0 = (parseRustF64 B).getD 0 := by
  match B, hdot with
  | [], _ => rfl
  | c :: R, hdot =>
      by_cases hc : c = '-'
      · subst hc
        have hdR : ('.') ∉ R := fun hm => hdot (List.mem_cons_of_mem _ hm)
        show (parseRustF64 ('-' :: (R ++ ['.']))).getD 0 = _
        simp only [parseRustF64, parseSign_dash]
        exact parseRust_body_case true R hdR
      · show (parseRustF64 (c :: (R ++ ['.']))).getD 0 = _
        simp only [parseRustF64, parseSign_not_dash c _ hc]
        rw [show c :: (R ++ ['.']) = (c :: R) ++ ['.'] from rfl]
        exact parseRust_body_case false (c :: R) hdot

end PartsTransform

namespace PartsTransform

lemma dropWhile_append_cons (p : Char → Bool) (B : List Char) (x : Char) (t : List Char)
    (hB : ∀ c ∈ B, p c = true) (hx : p x = false) :
    (B ++ x :: t).dropWhile p = x :: t := by
  induction B with
  | nil => simp [List.dropWhile, hx]
  | cons b bs ih =>
      simp only [List.cons_append, List.dropWhile_cons, hB b (List.mem_cons_self b bs), if_true]
      exact ih (fun d hd => hB d (List.mem_cons_of_mem _ hd))

lemma count_one_decomp (l : List Char) (h : l.count ',' = 1) :
    ∃ B A, l = B ++ ',' :: A ∧ (',') ∉ B ∧ (',') ∉ A := by
  induction l with
  | nil => simp at h
  | cons c cs ih =>
      by_cases hc : c = ','
      · subst hc
        rw [List.count_cons_self] at h
        have h0 : cs.count ',' = 0 := by omega
        exact ⟨[], cs, rfl, List.not_mem_nil ',', List.count_eq_zero.mp h0⟩
      · rw [List.count_cons_of_ne (by exact fun he => hc he.symm)] at h
        obtain ⟨B, A, rfl, hB, hA⟩ := ih h
        refine ⟨c :: B, A, rfl, ?_, hA⟩
        intro hm
        rcases List.mem_cons.mp hm with he | hm2
        · exact hc he.symm
        · exact hB hm2

lemma splitComma_no (A : List Char) (hA : (',') ∉ A) : splitComma A = [A] := by
  induction A with
  | nil => rfl
  | cons c cs ih =>
      have hc : ¬ c = ',' := fun he => hA (he ▸ List.mem_cons_self c cs)
      simp only [splitComma, if_neg hc]
      rw [ih (fun hm => hA (List.mem_cons_of_mem _ hm))]

lemma splitComma_decomp (B A : List Char) (hB : (',') ∉ B) :
    splitComma (B ++ ',' :: A) = B :: splitComma A := by
  induction B with
  | nil => simp [splitComma]
  | cons b bs ih =>
      have hb : ¬ b = ',' := fun he => hB (he ▸ List.mem_cons_self b bs)
      simp only [List.cons_append, splitComma, if_neg hb, List.append_eq]
      rw [ih (fun hm => hB (List.mem_cons_of_mem _ hm))]

lemma stripCommas_no (B : List Char) (hB : (',') ∉ B) : stripCommas B = B := by
  induction B with
  | nil => rfl
  | cons b bs ih =>
      have hb : ¬ b = ',' := fun he => hB (he ▸ List.mem_cons_self b bs)
      simp only [stripCommas, if_neg hb]
      rw [ih (fun hm => hB (List.mem_cons_of_mem _ hm))]

lemma stripCommas_decomp (B A : List Char) (hB : (',') ∉ B) (hA : (',') ∉ A) :
    stripCommas (B ++ ',' :: A) = B ++ A := by
  induction B with
  | nil => simp [stripCommas, stripCommas_no A hA]
  | cons b bs ih =>
      have hb : ¬ b = ',' := fun he => hB (he ▸ List.mem_cons_self b bs)
      simp only [List.cons_append, stripCommas, if_neg hb, List.append_eq]
      rw [ih (fun hm => hB (List.mem_cons_of_mem _ hm))]

lemma replaceFirstComma_decomp (B A : List Char) (hB : (',') ∉ B) :
    replaceFirstComma (B ++ ',' :: A) = B ++ '.' :: A := by
  induction B with
  | nil => simp [replaceFirstComma]
  | cons b bs ih =>
      have hb : ¬ b = ',' := fun he => hB (he ▸ List.mem_cons_self b bs)
      simp only [List.cons_append, replaceFirstComma, if_neg hb, List.append_eq]
      rw [ih (fun hm => hB (List.mem_cons_of_mem _ hm))]

lemma getLast?_flat (B : List Char) (x : Char) (A : List Char) :
    (B ++ x :: A).getLast? = (x :: A).getLast? := by
  induction B with
  | nil => rfl
  | cons b bs ih =>
      rw [List.cons_append, ← ih]
      cases hbs : bs ++ x :: A with
      | nil => exact absurd hbs (List.append_ne_nil_of_right_ne_nil bs (List.cons_ne_nil x A))
      | cons y ys => exact List.getLast?_cons_cons

lemma mem_of_getLast? : ∀ (l : List Char) (a : Char), l.getLast? = some a → a ∈ l
  | [], a, h => by simp [List.getLast?] at h
  | [x], a, h => by
      simp only [List.getLast?_singleton, Option.some.injEq] at h
      exact h ▸ List.mem_cons_self x []
  | x :: y :: t, a, h => by
      rw [List.getLast?_cons_cons] at h
      exact List.mem_cons_of_mem _ (mem_of_getLast? (y :: t) a h)

lemma getLast?_ne_comma (B A : List Char) (hA : A ≠ []) (hnA : (',') ∉ A) :
    (B ++ ',' :: A).getLast? ≠ some ',' := by
  rw [getLast?_flat]
  cases A with
  | nil => exact absurd rfl hA
  | cons a t =>
      rw [List.getLast?_cons_cons]
      intro h
      exact hnA (mem_of_getLast? (a :: t) ',' h)

end PartsTransform


namespace PartsTransform

lemma parse_f64Comma_eq_spec (cl : List Char) : parse_f64Comma cl = parse_f64SpecComma cl := by
  unfold parse_f64Comma parse_f64SpecComma
  by_cases hdot : ('.') ∈ cl
  · rw [if_pos hdot, if_pos hdot]
  rw [if_neg hdot, if_neg hdot]
  by_cases hcount : cl.count ',' = 1
  · obtain ⟨B, A, rfl, hB, hA⟩ := count_one_decomp cl hcount
    have hdotB : ('.') ∉ B := fun hm => hdot (List.mem_append_left _ hm)
    have hallB : ∀ c ∈ B, (fun c => decide (c ≠ ',')) c = true := by
      intro c hc
      simp only [decide_eq_true_eq]
      exact fun he => hB (he ▸ hc)
    have hcm : (fun c => decide (c ≠ ',')) ',' = false := by simp
    have hdw : ((B ++ ',' :: A).dropWhile fun c => decide (c ≠ ',')) = ',' :: A :=
      dropWhile_append_cons _ B ',' A hallB hcm
    by_cases hAnil : A = []
    · subst hAnil
      have hlast : (B ++ ',' :: ([] : List Char)).getLast? = some ',' := by
        exact List.getLast?_concat B
      rw [if_pos hlast, if_pos ⟨hcount, by rw [hdw]; exact Nat.zero_le 2⟩]
      rw [stripCommas_decomp B [] hB hA, replaceFirstComma_decomp B [] hB, List.append_nil]
      exact (parseRustF64_append_dot B hdotB).symm
    · rw [if_neg (getLast?_ne_comma B A hAnil hA), if_pos hcount]
      rw [splitComma_decomp B A hB, splitComma_no A hA]
      by_cases hlen : A.length ≤ 2
      · rw [if_pos ⟨rfl, hlen⟩, if_pos ⟨hcount, by rw [hdw]; exact hlen⟩]
      · rw [if_neg (fun hh => hlen hh.2), if_neg (fun hh => hlen (by rw [hdw] at hh; exact hh.2))]
  · have hspec : ¬((cl.count ',' = 1) ∧ ((cl.dropWhile fun c => decide (c ≠ ',')).drop 1).length ≤ 2) :=
      fun hh => hcount hh.1
    rw [if_neg hspec]
    by_cases hlast : cl.getLast? = some ','
    · rw [if_pos hlast]
    · rw [if_neg hlast, if_neg hcount]

lemma parse_f64SpecComma_nil : parse_f64SpecComma [] = 0 := rfl

lemma parse_f64_eq_spec (s : List Char) : parse_f64 s = parse_f64_spec s := by
  unfold parse_f64 parse_f64_spec
  by_cases hs : s = []
  · subst hs
    rw [if_pos rfl]
    rfl
  · rw [if_neg hs]
    show (if s.filter f64Keep = [] then 0 else parse_f64Comma (s.filter f64Keep)) = _
    by_cases hcl : s.filter f64Keep = []
    · rw [if_pos hcl, hcl, parse_f64SpecComma_nil]
    · rw [if_neg hcl]
      exact parse_f64Comma_eq_spec _

end PartsTransform

namespace PartsTransform

lemma i64Loop_acc_ne_nil (cs : List Char) (acc : List Char) (hacc : acc ≠ []) :
    i64Loop acc cs = acc ++ cs.takeWhile Char.isDigit := by
  induction cs generalizing acc with
  | nil => simp [i64Loop]
  | cons c cs ih =>
      by_cases hc : c.isDigit = true
      · rw [show i64Loop acc (c :: cs) = i64Loop (acc ++ [c]) cs from by
          simp [i64Loop, hc]]
        rw [ih (acc ++ [c]) (by simp), List.takeWhile_cons, if_pos hc, List.append_assoc]
        rfl
      · rw [show i64Loop acc (c :: cs) = acc from by
          simp [i64Loop, hc, hacc]]
        rw [List.takeWhile_cons, if_neg hc, List.append_nil]

lemma i64Loop_nil_acc (s : List Char) :
    i64Loop [] s = (s.dropWhile (fun c => !c.isDigit)).takeWhile Char.isDigit := by
  induction s with
  | nil => rfl
  | cons c cs ih =>
      by_cases hc : c.isDigit = true
      · rw [show i64Loop [] (c :: cs) = i64Loop ([] ++ [c]) cs from by
          simp [i64Loop, hc]]
        rw [List.nil_append, i64Loop_acc_ne_nil cs [c] (by simp), List.dropWhile_cons]
        simp [hc]
      · rw [show i64Loop [] (c :: cs) = i64Loop [] cs from by
          simp [i64Loop, hc]]
        rw [ih, List.dropWhile_cons]
        simp [hc]

lemma parse_i64_eq_amended (s : List Char) : parse_i64 s = parse_i64_amended s := by
  unfold parse_i64 parse_i64_amended
  by_cases hs : s = []
  · subst hs
    rfl
  · rw [if_neg hs]
    show (if i64Loop [] s = [] then 0
      else if digitsVal (i64Loop [] s) ≤ i64Max then (digitsVal (i64Loop [] s) : Int) else 0) = _
    rw [i64Loop_nil_acc]

end PartsTransform

namespace PartsTransform

lemma process_file_no_pn (m : CsvFileModel) (iid iname iat idx : List Char)
    (szD : PartRecord → Nat) (szE : PartRecordES → Nat) (hs : List (List Char))
    (hopen : m.openOk = true) (hhdr : m.headerResult = some hs)
    (hpn : (ColumnMap.from_headers hs).part_number = none) :
    process_file m iid iname iat idx szD szE =
      ⟨⟨m.file_name, 0, 0, 0, some (("no part number column detected").toList)⟩,
        false, false, []⟩ := by
  unfold process_file
  rw [hopen, hhdr]
  simp only [Bool.true_eq_false, if_false, hpn, if_pos rfl]
  rfl

lemma mainExitCode_one_iff (run : RunModel) (iid iname iat idx : List Char)
    (szD : PartRecord → Nat) (szE : PartRecordES → Nat) :
    mainExitCode run iid iname iat idx szD szE = 1 ↔
      (run.argc < 3 ∨ run.inputDirOk = false ∨ run.outputDirOk = false ∨ run.files = [] ∨
        ((mainResults run iid iname iat idx szD szE).filter (fun r => r.error.isSome) ≠ []
          ∧ ((mainResults run iid iname iat idx szD szE).map (fun r => r.records)).sum = 0)) := by
  unfold mainExitCode
  by_cases h1 : run.argc < 3
  · simp [h1]
  rw [if_neg h1]
  by_cases h2 : run.inputDirOk = false
  · simp [h1, h2]
  rw [if_neg h2]
  by_cases h3 : run.outputDirOk = false
  · simp [h1, h2, h3]
  rw [if_neg h3]
  by_cases h4 : run.files = []
  · simp [h1, h2, h3, h4]
  rw [if_neg h4]
  show ((if (mainResults run iid iname iat idx szD szE).filter (fun r => r.error.isSome) = []
      then 0
      else if ((mainResults run iid iname iat idx szD szE).map (fun r => r.records)).sum = 0
      then 1 else (0 : Nat)) = 1) ↔ _
  by_cases h5 : (mainResults run iid iname iat idx szD szE).filter (fun r => r.error.isSome) = []
  · simp [h1, h2, h3, h4, h5]
  rw [if_neg h5]
  by_cases h6 : ((mainResults run iid iname iat idx szD szE).map (fun r => r.records)).sum = 0
  · simp [h1, h2, h3, h4, h5, h6]
  · simp [h1, h2, h3, h4, h5, h6]

lemma mainExitCode_zero_of_record (run : RunModel) (iid iname iat idx : List Char)
    (szD : PartRecord → Nat) (szE : PartRecordES → Nat)
    (h1 : ¬ run.argc < 3) (h2 : run.inputDirOk = true) (h3 : run.outputDirOk = true)
    (hrec : ∃ r ∈ mainResults run iid iname iat idx szD szE, 0 < r.records) :
    mainExitCode run iid iname iat idx szD szE = 0 := by
  obtain ⟨r, hr, hrpos⟩ := hrec
  have hfiles : run.files ≠ [] := by
    intro hnil
    rw [mainResults, hnil] at hr
    exact List.not_mem_nil r hr
  have hsum : ((mainResults run iid iname iat idx szD szE).map (fun r => r.records)).sum ≠ 0 := by
    intro h0
    have hm : r.records ∈ (mainResults run iid iname iat idx szD szE).map (fun r => r.records) :=
      List.mem_map_of_mem _ hr
    have := List.single_le_sum (fun (x : Nat) _ => Nat.zero_le x) _ hm
    omega
  unfold mainExitCode
  rw [if_neg h1, if_neg (by simp [h2]), if_neg (by simp [h3]), if_neg hfiles]
  show (if (mainResults run iid iname iat idx szD szE).filter (fun r => r.error.isSome) = []
      then 0
      else if ((mainResults run iid iname iat idx szD szE).map (fun r => r.records)).sum = 0
      then 1 else (0 : Nat)) = 0
  by_cases h5 : (mainResults run iid iname iat idx szD szE).filter (fun r => r.error.isSome) = []
  · rw [if_pos h5]
  · rw [if_neg h5, if_neg hsum]

end PartsTransform

namespace PartsTransform

/-! ### Concrete fixtures used by counterexamples and witnesses -/

/-- A file whose header resolves no part-number column. -/
def fileNoPn : CsvFileModel :=
  ⟨("c.csv").toList, true, some [("Title").toList], true, true, [some [("x").toList]]⟩

/-- A file that succeeds (has a part-number column) but contains no rows. -/
def fileOkEmpty : CsvFileModel :=
  ⟨("a.csv").toList, true, some [("sku").toList], true, true, []⟩

/-- A file whose input open fails. -/
def fileOpenFail : CsvFileModel :=
  ⟨("b.csv").toList, false, none, true, true, []⟩

/-- A file that produces exactly one record. -/
def fileOneRecord : CsvFileModel :=
  ⟨("d.csv").toList, true, some [("sku").toList], true, true, [some [("P1").toList]]⟩

/-- A run with one succeeded-but-empty file and one failed file. -/
def runPartialCx : RunModel := ⟨3, true, true, [fileOkEmpty, fileOpenFail]⟩

/-- A run with one file producing a record and one failed file. -/
def runPartialOk : RunModel := ⟨3, true, true, [fileOneRecord, fileOpenFail]⟩

/-- Column map used by the row-level witnesses. -/
def cmW : ColumnMap := ColumnMap.from_headers [("sku").toList]

/-- Witness file name with a derivable stock code `B`. -/
def fnW : List Char := ("a_B_part1.csv").toList

/-- Witness row: a single part-number cell. -/
def rowW : List (List Char) := [("P1").toList]

/-- The document-store record the witness row projects to. -/
def docW : PartRecord :=
  { part_number := ("P1").toList, description := [], brand := [], supplier := []
    price := 0, currency := ("AED").toList, quantity := 0, min_order_qty := 1
    stock := ("unknown").toList, stock_code := ("B").toList, weight := 0
    weight_unit := ("kg").toList, volume := 0, delivery_days := 0, category := []
    subcategory := [], integration := [], integration_name := [], file_name := fnW
    imported_at := [] }

/-- The search-engine record the witness row projects to. -/
def esW : PartRecordES := docW.toES

/-! ### The claims -/

/-- Claim C1 counterexample: for a concrete file whose header resolves no
part-number column (and whose output creations would succeed), the
pipeline returns the missing-part-number error having created NEITHER
output file — refuting the claim that both output files are created
before the failure is detected. -/
theorem c1_counterexample :
    (process_file fileNoPn [] [] [] [] (fun _ => 0) (fun _ => 0)).result.error
        = some (("no part number column detected").toList)
    ∧ (process_file fileNoPn [] [] [] [] (fun _ => 0) (fun _ => 0)).ndjsonCreated = false
    ∧ (process_file fileNoPn [] [] [] [] (fun _ => 0) (fun _ => 0)).bulkCreated = false := by
  decide

/-- Claim C1 (amended): for every input file whose header row resolves no
part-number column, the failure is detected BEFORE either output file is
created: the pipeline creates neither the `.ndjson` nor the `.bulk`
output and returns the FileResult with the missing-part-number error. -/
theorem c1_missing_pn_creates_no_outputs
    (m : CsvFileModel) (iid iname iat idx : List Char)
    (szD : PartRecord → Nat) (szE : PartRecordES → Nat) (hs : List (List Char))
    (hopen : m.openOk = true) (hhdr : m.headerResult = some hs)
    (hpn : (ColumnMap.from_headers hs).part_number = none) :
    (process_file m iid iname iat idx szD szE).ndjsonCreated = false
    ∧ (process_file m iid iname iat idx szD szE).bulkCreated = false
    ∧ (process_file m iid iname iat idx szD szE).result.error
        = some (("no part number column detected").toList) := by
  rw [process_file_no_pn m iid iname iat idx szD szE hs hopen hhdr hpn]
  exact ⟨rfl, rfl, rfl⟩

/-- Claim C1 witness: the amended theorem applied to the concrete file. -/
theorem c1_witness :
    (process_file fileNoPn [] [] [] [] (fun _ => 0) (fun _ => 0)).ndjsonCreated = false
    ∧ (process_file fileNoPn [] [] [] [] (fun _ => 0) (fun _ => 0)).bulkCreated = false
    ∧ (process_file fileNoPn [] [] [] [] (fun _ => 0) (fun _ => 0)).result.error
        = some (("no part number column detected").toList) :=
  c1_missing_pn_creates_no_outputs fileNoPn [] [] [] [] (fun _ => 0) (fun _ => 0)
    [("Title").toList] rfl rfl (by decide)

/-- Claim C2 counterexample: a run in which one file succeeded (its
FileResult has no error) and another failed exits with status 1, because
the total record count is zero — refuting "a run where at least one file
succeeds yields exit status 0 even if other files failed". -/
theorem c2_counterexample :
    mainExitCode runPartialCx [] [] [] [] (fun _ => 0) (fun _ => 0) = 1
    ∧ (process_file fileOkEmpty [] [] [] [] (fun _ => 0) (fun _ => 0)).result.error = none
    ∧ (process_file fileOpenFail [] [] [] [] (fun _ => 0) (fun _ => 0)).result.error ≠ none := by
  decide

/-- Claim C2 (amended): the exit status is 1 exactly when required
arguments are missing, the input directory is absent, the output
directory cannot be created, no CSV files are found, or AT LEAST ONE file
failed and zero total records were produced; in particular a run passing
the pre-flight checks in which some file produced at least one record
exits with status 0 even if other files failed. -/
theorem c2_exit_status (run : RunModel) (iid iname iat idx : List Char)
    (szD : PartRecord → Nat) (szE : PartRecordES → Nat) :
    (mainExitCode run iid iname iat idx szD szE = 1 ↔
      (run.argc < 3 ∨ run.inputDirOk = false ∨ run.outputDirOk = false ∨ run.files = [] ∨
        ((mainResults run iid iname iat idx szD szE).filter (fun r => r.error.isSome) ≠ []
          ∧ ((mainResults run iid iname iat idx szD szE).map (fun r => r.records)).sum = 0)))
    ∧ (¬ run.argc < 3 → run.inputDirOk = true → run.outputDirOk = true →
        (∃ r ∈ mainResults run iid iname iat idx szD szE, 0 < r.records) →
        mainExitCode run iid iname iat idx szD szE = 0) :=
  ⟨mainExitCode_one_iff run iid iname iat idx szD szE,
   fun h1 h2 h3 hrec => mainExitCode_zero_of_record run iid iname iat idx szD szE h1 h2 h3 hrec⟩

/-- Claim C2 witness: a run with one record-producing file and one failed
file exits with status 0. -/
theorem c2_witness :
    mainExitCode runPartialOk [] [] [] [] (fun _ => 0) (fun _ => 0) = 0 :=
  (c2_exit_status runPartialOk [] [] [] [] (fun _ => 0) (fun _ => 0)).2 (by decide) rfl rfl
    ⟨(process_file fileOneRecord [] [] [] [] (fun _ => 0) (fun _ => 0)).result,
      by decide, by decide⟩

/-- Claim C3: numeric coercion strips to `{digits, '.', '-', ','}`; with
a dot present commas are removed; otherwise a single comma whose
following text has length at most two becomes a decimal point; any other
comma pattern is stripped; empty or unparsable input yields 0 (the
function is total, hence never panics) — the code agrees with this
description on every input, and on the four stated examples. -/
theorem c3_parse_f64_conformance :
    (∀ s : List Char, parse_f64 s = parse_f64_spec s)
    ∧ parse_f64 (("1,234.56").toList) = (1234.56 : ℚ)
    ∧ parse_f64 (("12,34").toList) = (12.34 : ℚ)
    ∧ parse_f64 ([] : List Char) = 0
    ∧ parse_f64 (("abc").toList) = 0 :=
  ⟨parse_f64_eq_spec, by with_unfolding_all rfl, by with_unfolding_all rfl, rfl,
    by with_unfolding_all rfl⟩

/-- Claim C4: column resolution is first-match-wins and order-stable —
every slot filled after scanning a prefix keeps its index when more
headers follow — and on the header row
`["Vendor Code", "Title", "Stock", "Stock Code"]` part-number resolves to
index 0, description to 1, stock to 2 and stock-code to 3. -/
theorem c4_first_match_wins :
    (∀ (pre post : List (List Char)),
        ColumnMap.Extends (ColumnMap.from_headers pre) (ColumnMap.from_headers (pre ++ post)))
    ∧ ColumnMap.from_headers
        [("Vendor Code").toList, ("Title").toList, ("Stock").toList, ("Stock Code").toList]
      = { emptyColumnMap with
            part_number := some 0, description := some 1, stock := some 2, stock_code := some 3 } := by
  constructor
  · intro pre post
    unfold ColumnMap.from_headers
    rw [fromHeadersAux_append]
    exact fromHeadersAux_extends _ _ _
  · rfl

/-- Claim C4 witness: the stability statement applied to a concrete
prefix and suffix. -/
theorem c4_witness :
    ColumnMap.Extends (ColumnMap.from_headers [("sku").toList])
      (ColumnMap.from_headers ([("sku").toList] ++ [("code").toList])) :=
  c4_first_match_wins.1 [("sku").toList] [("code").toList]

/-- Claim C5: when no header cell satisfies any part-number synonym
rule, the resolver leaves the part-number slot empty and the pipeline
returns a FileResult with zero records, zero bytes on both streams and a
descriptive error, without streaming any data rows. -/
theorem c5_missing_pn_zero_records
    (m : CsvFileModel) (iid iname iat idx : List Char)
    (szD : PartRecord → Nat) (szE : PartRecordES → Nat) (hs : List (List Char))
    (hopen : m.openOk = true) (hhdr : m.headerResult = some hs)
    (hnone : ∀ h ∈ hs, partNumberHeaderPred (normHeader h) = false) :
    (ColumnMap.from_headers hs).part_number = none
    ∧ (process_file m iid iname iat idx szD szE).result.records = 0
    ∧ (process_file m iid iname iat idx szD szE).result.ndjson_bytes = 0
    ∧ (process_file m iid iname iat idx szD szE).result.bulk_bytes = 0
    ∧ (process_file m iid iname iat idx szD szE).result.error
        = some (("no part number column detected").toList)
    ∧ (process_file m iid iname iat idx szD szE).emitted = [] := by
  have hpn := from_headers_pn_none hs hnone
  rw [process_file_no_pn m iid iname iat idx szD szE hs hopen hhdr hpn]
  exact ⟨hpn, rfl, rfl, rfl, rfl, rfl⟩

/-- Claim C5 witness: the theorem applied to a concrete file whose only
header is `Title`. -/
theorem c5_witness :
    (ColumnMap.from_headers [("Title").toList]).part_number = none
    ∧ (process_file fileNoPn [] [] [] [] (fun _ => 0) (fun _ => 0)).result.records = 0
    ∧ (process_file fileNoPn [] [] [] [] (fun _ => 0) (fun _ => 0)).result.ndjson_bytes = 0
    ∧ (process_file fileNoPn [] [] [] [] (fun _ => 0) (fun _ => 0)).result.bulk_bytes = 0
    ∧ (process_file fileNoPn [] [] [] [] (fun _ => 0) (fun _ => 0)).result.error
        = some (("no part number column detected").toList)
    ∧ (process_file fileNoPn [] [] [] [] (fun _ => 0) (fun _ => 0)).emitted = [] :=
  c5_missing_pn_zero_records fileNoPn [] [] [] [] (fun _ => 0) (fun _ => 0)
    [("Title").toList] rfl rfl (by decide)

/-- Claim C6: for every accepted row the search-engine record is exactly
the projection of the document-store record onto the shared fields (so
the two never diverge on a shared field), and the document-store record
additionally carries the run's import timestamp. -/
theorem c6_shared_fields (cm : ColumnMap) (fn fsc iid iname iat : List Char)
    (row : List (List Char)) (doc : PartRecord) (es : PartRecordES)
    (h : projectRow cm fn fsc iid iname iat row = some (doc, es)) :
    es = doc.toES ∧ doc.imported_at = iat := by
  by_cases hpn : get_field row cm.part_number = []
  · simp [projectRow, hpn] at h
  · simp only [projectRow, if_neg hpn, Option.some.injEq, Prod.mk.injEq] at h
    obtain ⟨hdoc, hes⟩ := h
    subst hdoc
    subst hes
    exact ⟨rfl, rfl⟩

/-- Claim C6 witness: the theorem applied to a concrete accepted row. -/
theorem c6_witness : esW = docW.toES ∧ docW.imported_at = [] :=
  c6_shared_fields cmW fnW (extract_stock_code_from_filename fnW) [] [] [] rowW docW esW
    (by with_unfolding_all rfl)

/-- Claim C7: stock-code resolution is two-tier — a non-empty trimmed
stock-code cell wins, otherwise the code derived from the file name is
used (for `"APMG price 1 day_DS1_part1.csv"` that is `"DS1"`), and when
neither source is available the stock code is empty. -/
theorem c7_stock_code_two_tier :
    extract_stock_code_from_filename (("APMG price 1 day_DS1_part1.csv").toList) = ("DS1").toList
    ∧ (∀ (cm : ColumnMap) (fn iid iname iat : List Char) (row : List (List Char))
        (doc : PartRecord) (es : PartRecordES),
        projectRow cm fn (extract_stock_code_from_filename fn) iid iname iat row = some (doc, es) →
          (get_field row cm.stock_code ≠ [] → doc.stock_code = get_field row cm.stock_code)
          ∧ (get_field row cm.stock_code = [] →
              doc.stock_code = extract_stock_code_from_filename fn)
          ∧ (get_field row cm.stock_code = [] → extract_stock_code_from_filename fn = [] →
              doc.stock_code = [])) := by
  constructor
  · decide
  · intro cm fn iid iname iat row doc es h
    by_cases hpn : get_field row cm.part_number = []
    · simp [projectRow, hpn] at h
    · simp only [projectRow, if_neg hpn, Option.some.injEq, Prod.mk.injEq] at h
      obtain ⟨hdoc, hes⟩ := h
      subst hdoc
      subst hes
      refine ⟨?_, ?_, ?_⟩
      · intro hc
        show (if get_field row cm.stock_code = [] then extract_stock_code_from_filename fn
          else get_field row cm.stock_code) = get_field row cm.stock_code
        rw [if_neg hc]
      · intro hc
        show (if get_field row cm.stock_code = [] then extract_stock_code_from_filename fn
          else get_field row cm.stock_code) = extract_stock_code_from_filename fn
        rw [if_pos hc]
      · intro hc hfn
        show (if get_field row cm.stock_code = [] then extract_stock_code_from_filename fn
          else get_field row cm.stock_code) = []
        rw [if_pos hc, hfn]

/-- Claim C7 witness: the row-level rule applied to a concrete row with
an absent stock-code column, deriving the code `B` from the file name. -/
theorem c7_witness : docW.stock_code = extract_stock_code_from_filename fnW :=
  (c7_stock_code_two_tier.2 cmW fnW [] [] [] rowW docW esW
    (by with_unfolding_all rfl)).2.1 (by decide)

/-- Claim C8: field-level defaults — an empty currency cell gives `AED`,
an empty weight-unit cell gives `kg`, an empty stock cell gives
`unknown`, and a min-order quantity parsing to zero or negative gives 1. -/
theorem c8_field_defaults (cm : ColumnMap) (fn fsc iid iname iat : List Char)
    (row : List (List Char)) (doc : PartRecord) (es : PartRecordES)
    (h : projectRow cm fn fsc iid iname iat row = some (doc, es)) :
    (get_field row cm.currency = [] → doc.currency = ("AED").toList)
    ∧ (get_field row cm.weight_unit = [] → doc.weight_unit = ("kg").toList)
    ∧ (get_field row cm.stock = [] → doc.stock = ("unknown").toList)
    ∧ (parse_i64 (get_field row cm.min_order_qty) ≤ 0 → doc.min_order_qty = 1) := by
  by_cases hpn : get_field row cm.part_number = []
  · simp [projectRow, hpn] at h
  · simp only [projectRow, if_neg hpn, Option.some.injEq, Prod.mk.injEq] at h
    obtain ⟨hdoc, hes⟩ := h
    subst hdoc
    subst hes
    refine ⟨?_, ?_, ?_, ?_⟩
    · intro hc
      show (if get_field row cm.currency = [] then ("AED").toList
        else get_field row cm.currency) = ("AED").toList
      rw [if_pos hc]
    · intro hc
      show (if get_field row cm.weight_unit = [] then ("kg").toList
        else get_field row cm.weight_unit) = ("kg").toList
      rw [if_pos hc]
    · intro hc
      show (if get_field row cm.stock = [] then ("unknown").toList
        else get_field row cm.stock) = ("unknown").toList
      rw [if_pos hc]
    · intro hc
      show (if parse_i64 (get_field row cm.min_order_qty) < 1 then 1
        else parse_i64 (get_field row cm.min_order_qty)) = 1
      rw [if_pos (by omega)]

/-- Claim C8 witness: the defaults on a concrete row whose currency,
weight-unit, stock and min-order cells are all absent. -/
theorem c8_witness :
    docW.currency = ("AED").toList ∧ docW.weight_unit = ("kg").toList
    ∧ docW.stock = ("unknown").toList ∧ docW.min_order_qty = 1 := by
  have hp := c8_field_defaults cmW fnW (extract_stock_code_from_filename fnW) [] [] [] rowW
    docW esW (by with_unfolding_all rfl)
  exact ⟨hp.1 (by decide), hp.2.1 (by decide), hp.2.2.1 (by decide), hp.2.2.2 (by decide)⟩

/-- Claim C9 counterexample: on the 19-digit input
`"9223372036854775808"` (one more than the `i64` maximum) the first
maximal digit run is the whole string, whose value is 9223372036854775808,
but `parse_i64` returns 0 because `i64` parsing overflows — refuting
"returns the value of the first maximal run of ASCII digits" as stated. -/
theorem c9_counterexample :
    parse_i64 (("9223372036854775808").toList) = 0
    ∧ ((("9223372036854775808").toList.dropWhile (fun c => !c.isDigit)).takeWhile Char.isDigit)
        = ("9223372036854775808").toList
    ∧ digitsVal (("9223372036854775808").toList) = 9223372036854775808 := by
  decide

/-- Claim C9 (amended): integer coercion returns the value of the first
maximal run of ASCII digits, ignoring leading non-digits, except that a
run whose value exceeds the `i64` maximum also yields 0; sign and
fractional parts are discarded, `"Qty: 42 units"` gives 42 and the
empty input gives 0. -/
theorem c9_parse_i64_amended_eq :
    (∀ s : List Char, parse_i64 s = parse_i64_amended s)
    ∧ parse_i64 (("Qty: 42 units").toList) = 42
    ∧ parse_i64 ([] : List Char) = 0 :=
  ⟨parse_i64_eq_amended, by decide, rfl⟩

/-- Claim C10: processing one header cell assigns it to at most one
semantic field slot — the resulting column map differs from the previous
one in at most one of its 16 slots, because the first matching rule in
the fixed order captures the cell and ends the iteration. -/
theorem c10_one_slot_per_header (m : ColumnMap) (i : Nat) (h : List Char) :
    changedCount m (stepHeader m i h) ≤ 1 :=
  stepHeader_changedCount m i h

end PartsTransform
